import Mathlib

/-!
Verification of the retrieve-enrich-summarize pipeline of the Get-A-Gist
MCP server (Hono worker, file `src/index.ts` of the repository).

The TypeScript source is shallowly embedded: pure string manipulation is
translated to executable Lean functions over `List Char` / `String`;
every network or model interaction is made explicit as an "outcome"
value describing what the external world returned, so that the
functions of this file are total and mirror exactly the control flow of
the source (its `try`/`catch` blocks become `Except`/`Option`
plumbing).  JavaScript `\s` / `trim()` whitespace is modelled by
`Char.isWhitespace` (space, tab, CR, LF), and JS string lengths /
`substring` are modelled on the character (code-point) level; all
claims concern ASCII-ranged data where the two coincide.
-/

/-- Case-insensitive character equality, modelling the `i` flag of the
JavaScript regexes in `extractMainContent`. -/
def ciEq (a b : Char) : Bool := a.toLower == b.toLower

/-- `isPrefixCI pat s` holds when `pat` matches case-insensitively at the
head of `s` (literal part of a case-insensitive regex). -/
def isPrefixCI : List Char → List Char → Bool
  | [], _ => true
  | _ :: _, [] => false
  | a :: as, b :: bs => ciEq a b && isPrefixCI as bs

/-- Scanning helper for the regex piece `[^>]*>`: drop everything up to
and including the first `>`; `none` when no `>` occurs. -/
def dropThroughGt : List Char → Option (List Char)
  | [] => none
  | c :: rest => if c = '>' then some rest else dropThroughGt rest

/-- Scanning helper for the lazy `[\s\S]*?` followed by a closing
literal: drop everything up to and including the earliest
case-insensitive occurrence of `closing`; `none` when there is none. -/
def dropThroughClose (closing : List Char) : List Char → Option (List Char)
  | [] => none
  | c :: rest =>
    if isPrefixCI closing (c :: rest) then some (List.drop closing.length (c :: rest))
    else dropThroughClose closing rest

theorem dropThroughGt_length {s t : List Char} (h : dropThroughGt s = some t) :
    t.length < s.length := by
  induction s with
  | nil => simp [dropThroughGt] at h
  | cons c rest ih =>
    by_cases hc : c = '>'
    · simp [dropThroughGt, hc] at h
      simp [← h, List.length_cons]
    · simp [dropThroughGt, hc] at h
      have := ih h
      simp only [List.length_cons]
      omega

theorem dropThroughClose_length {closing s t : List Char}
    (h : dropThroughClose closing s = some t) : t.length ≤ s.length := by
  induction s with
  | nil => simp [dropThroughClose] at h
  | cons c rest ih =>
    by_cases hp : isPrefixCI closing (c :: rest) = true
    · simp [dropThroughClose, hp] at h
      simp only [← h, List.length_drop]
      omega
    · simp [dropThroughClose, hp] at h
      have := ih h
      simp only [List.length_cons]
      omega

/-- Global removal of `<tag[^>]*>[\s\S]*?</tag>` blocks (case
insensitive), modelling
`html.replace(/<script[^>]*>[\s\S]*?<\/script>/gi, '')` and the
analogous `style` replacement in `extractMainContent`: scan left to
right; where the opening literal, a `>`, and the closing literal can
all be found, the whole block is dropped and scanning resumes after it;
otherwise the current character is kept and scanning advances by one,
exactly as the JS global regex does. -/
def stripBlocks (opening closing : List Char) : List Char → List Char
  | [] => []
  | c :: rest =>
    if isPrefixCI opening (c :: rest) then
      match hGt : dropThroughGt (List.drop opening.length (c :: rest)) with
      | some afterGt =>
        match hCl : dropThroughClose closing afterGt with
        | some afterClose => stripBlocks opening closing afterClose
        | none => c :: stripBlocks opening closing rest
      | none => c :: stripBlocks opening closing rest
    else c :: stripBlocks opening closing rest
  termination_by s => s.length
  decreasing_by
  · have h1 := dropThroughClose_length hCl
    have h2 := dropThroughGt_length hGt
    have h3 : (List.drop opening.length (c :: rest)).length ≤ (c :: rest).length := by
      simp [List.length_drop]
    omega
  · simp only [List.length_cons]; omega
  · simp only [List.length_cons]; omega
  · simp only [List.length_cons]; omega

/-- One-pass model of `content.replace(/<[^>]*>/g, ' ')`.  The pending
buffer (in reverse order) holds the characters consumed since an
unmatched `<`; on reaching `>` the whole buffered tag is replaced by a
single space, and a buffer still pending at the end of input is
restored verbatim (the JS regex matches nothing there, since no `>`
follows that `<`). -/
def stripTagsAux : Option (List Char) → List Char → List Char
  | none, [] => []
  | some pend, [] => pend.reverse
  | none, c :: rest =>
    if c = '<' then stripTagsAux (some [c]) rest else c :: stripTagsAux none rest
  | some pend, c :: rest =>
    if c = '>' then ' ' :: stripTagsAux none rest
    else stripTagsAux (some (c :: pend)) rest

def stripTags (s : List Char) : List Char := stripTagsAux none s

/-- One-pass model of `content.replace(/\s+/g, ' ')`: the flag records
whether the previous input character belonged to a whitespace run whose
single replacement space has already been emitted. -/
def collapseAux : Bool → List Char → List Char
  | _, [] => []
  | prevWs, c :: rest =>
    if c.isWhitespace then
      if prevWs then collapseAux true rest
      else ' ' :: collapseAux true rest
    else c :: collapseAux false rest

def collapseWs (s : List Char) : List Char := collapseAux false s

/-- Model of JavaScript `String.prototype.trim()`. -/
def trimChars (s : List Char) : List Char :=
  (((s.dropWhile Char.isWhitespace).reverse.dropWhile Char.isWhitespace)).reverse

def scriptOpen : List Char := "<script".data
def scriptClose : List Char := "</script>".data
def styleOpen : List Char := "<style".data
def styleClose : List Char := "</style>".data

/-- `extractMainContent` from `src/index.ts` (lines 31-44): remove
script blocks, remove style blocks, replace remaining tags by spaces,
collapse whitespace runs, trim, and truncate to 5000 characters. -/
def extractChars (html : List Char) : List Char :=
  let c1 := stripBlocks scriptOpen scriptClose html
  let c2 := stripBlocks styleOpen styleClose c1
  let c3 := stripTags c2
  let c4 := trimChars (collapseWs c3)
  c4.take 5000

def extractMainContent (html : String) : String := ⟨extractChars html.data⟩

/-- `needle` matches at the head of `hay` (case sensitive). -/
def startsWithList : List Char → List Char → Bool
  | _, [] => true
  | [], _ :: _ => false
  | a :: as, b :: bs => (a == b) && startsWithList as bs

/-- Model of JavaScript `hay.includes(needle)`. -/
def containsList : List Char → List Char → Bool
  | [], needle => needle.isEmpty
  | c :: rest, needle => startsWithList (c :: rest) needle || containsList rest needle

/-- One raw item of the Serper JSON response (`organic` or `news`
entry); every field may be absent. -/
structure SerperItem where
  title : Option String
  link : Option String
  snippet : Option String
  date : Option String
  deriving DecidableEq

/-- The parsed Serper response body: the `organic` and `news` arrays,
each possibly absent (`data.organic && Array.isArray(data.organic)`). -/
structure SerperData where
  organic : Option (List SerperItem)
  news : Option (List SerperItem)
  deriving DecidableEq

/-- Normalized search result (`interface SearchResult`); `published` is
always assigned by `searchWeb` (`result.date || new Date().toISOString()`),
so it is a plain string here. -/
structure SearchResult where
  title : String
  url : String
  snippet : String
  published : String
  deriving DecidableEq

/-- JavaScript `v || d` on an optional string field: `undefined` and
`""` are both falsy. -/
def jsOr (v : Option String) (d : String) : String :=
  match v with
  | none => d
  | some s => if s = "" then d else s

/-- Normalization of one Serper item inside the result loops of
`searchWeb` (lines 93-98 / 106-111); `now` stands for the
`new Date().toISOString()` default. -/
def normalizeResult (now : String) (item : SerperItem) : SearchResult :=
  { title := jsOr item.title "No title"
  , url := jsOr item.link ""
  , snippet := jsOr item.snippet "No description available"
  , published := jsOr item.date now }

/-- The result-collection phase of `searchWeb` (lines 87-113): up to
`numResults` organic results; when that yields nothing, up to
`numResults` news results. -/
def buildResults (data : SerperData) (numResults : Nat) (now : String) : List SearchResult :=
  let organicPart : List SearchResult :=
    match data.organic with
    | some l => (l.take numResults).map (normalizeResult now)
    | none => []
  if organicPart.length = 0 then
    match data.news with
    | some l => (l.take numResults).map (normalizeResult now)
    | none => organicPart
  else organicPart

deriving instance DecidableEq for Except

/-- What the outside world did for the one Serper HTTP POST:
a rejected transport `fetch`, or a response with its status, its
`response.text()` and the outcome of `response.json()` (an `Except`
since JSON parsing can throw). -/
inductive SearchOutcome where
  | transportError (msg : String)
  | response (status : Nat) (text : String) (json : Except String SerperData)
  deriving DecidableEq

/-- `response.ok`: HTTP status in the 200-299 range. -/
def statusOk (status : Nat) : Bool := 200 ≤ status && status ≤ 299

/-- `searchWeb` (lines 47-121).  The key check precedes the `try`
block, so it fires regardless of (and before) the network outcome; the
`catch` rethrows, so every failure propagates as `.error`.
`env.SERPER_API_KEY` is `Option String`, with `""` falsy like in JS. -/
def searchWeb (apiKey : Option String) (query : String) (numResults : Nat)
    (now : String) (outcome : SearchOutcome) : Except String (List SearchResult) :=
  if apiKey.getD "" = "" then
    .error "SERPER_API_KEY is required but not configured"
  else
    match outcome with
    | .transportError msg => .error msg
    | .response status text json =>
      if !statusOk status then
        .error ("Serper API error: " ++ toString status ++ " - " ++ text)
      else
        match json with
        | .error msg => .error msg
        | .ok data => .ok (buildResults data numResults now)

/-- `response.text()` outcome for the page fetch. -/
inductive BodyRead where
  | ok (html : String)
  | readError (msg : String)
  deriving DecidableEq

/-- What the outside world did for one page-fetch `fetch(url)`. -/
inductive FetchOutcome where
  | transportError (msg : String)
  | response (status : Nat) (body : BodyRead)
  deriving DecidableEq

/-- `fetchPageContent` (lines 124-150): returns
`extractMainContent(html)` on a 2xx response whose body could be read,
and `''` on every failure (transport error, non-2xx status — which the
code turns into a thrown `HTTP <status>` — or a body-read failure); the
surrounding `try`/`catch` means it never throws to its caller. -/
def fetchPageContent (outcome : FetchOutcome) : String :=
  match outcome with
  | .transportError _ => ""
  | .response status body =>
    if !statusOk status then ""
    else
      match body with
      | .readError _ => ""
      | .ok html => extractMainContent html

/-- Outcome of one `generateText` model invocation. -/
inductive ModelOutcome where
  | ok (text : String)
  | error (msg : String)
  deriving DecidableEq

/-- The guard `!content || content.trim().length === 0` at the head of
`generateSummary`. -/
def isBlankContent (content : String) : Bool :=
  (content == "") || ((trimChars content.data).length == 0)

/-- `generateSummary` (lines 153-180): blank input short-circuits to a
fixed literal before the model client is even constructed; a model
failure is caught and the content is truncated to
`summaryLength * 5` characters; the function never throws. -/
def generateSummary (content : String) (summaryLength : Nat) (model : ModelOutcome) : String :=
  if isBlankContent content then
    "No content available to summarize."
  else
    match model with
    | .ok text => text
    | .error _ => ⟨content.data.take (summaryLength * 5)⟩

/-- The shared fetch guard
`result.url && !result.url.includes('example.com')` (lines 222 and
393). -/
def shouldFetch (url : String) : Bool :=
  (url != "") && !(containsList url.data "example.com".data)

/-- One summarized result of the MCP tool
(`interface SummarizedResult`). -/
structure SummarizedResult where
  title : String
  url : String
  summary : String
  published : String
  originalSnippet : String
  deriving DecidableEq

/-- Lines 219-227 of the MCP tool loop: `contentToSummarize` starts as
the snippet and is replaced by the fetched page content exactly when
the guard passes and the fetched content is truthy and strictly longer
than the snippet. -/
def mcpContentFor (r : SearchResult) (fetchOracle : String → FetchOutcome) : String :=
  if shouldFetch r.url then
    let pageContent := fetchPageContent (fetchOracle r.url)
    if pageContent != "" && pageContent.length > r.snippet.length then pageContent
    else r.snippet
  else r.snippet

/-- The `try` body of one MCP loop iteration (lines 217-250): fetch
decision, then a direct `generateText` call; a model rejection is the
only possible throw (everything else in the body is total), and it is
surfaced as `.error` to the surrounding per-result `catch`. -/
def mcpStep (r : SearchResult) (fetchOracle : String → FetchOutcome)
    (modelOracle : String → ModelOutcome) : Except String SummarizedResult :=
  let contentToSummarize := mcpContentFor r fetchOracle
  match modelOracle contentToSummarize with
  | .ok text =>
    .ok { title := r.title, url := r.url, summary := text
        , published := r.published, originalSnippet := r.snippet }
  | .error msg => .error msg

/-- The per-result `catch` of the MCP tool loop (lines 251-261): on any
throw from the step, push the snippet as the summary and keep going. -/
def mcpCatchWrap (r : SearchResult) (step : SearchResult → Except String SummarizedResult) :
    SummarizedResult :=
  match step r with
  | .ok s => s
  | .error _ =>
    { title := r.title, url := r.url, summary := r.snippet
    , published := r.published, originalSnippet := r.snippet }

/-- The whole `for (const result of searchResults)` loop of the MCP
tool (lines 216-262). -/
def mcpLoop (step : SearchResult → Except String SummarizedResult)
    (results : List SearchResult) : List SummarizedResult :=
  results.map (fun r => mcpCatchWrap r step)

/-- One entry pushed onto `summaries` by the `/api/search` loop.
`contentLength` is only present on the success path and `errorMsg`
(the JSON field `error`) only on the catch path; `none` models an
absent field. -/
structure ApiSummary where
  title : String
  url : String
  published : String
  summary : String
  contentSource : String
  contentLength : Option Nat
  errorMsg : Option String
  deriving DecidableEq

/-- Lines 389-405 of the `/api/search` loop: the
(`contentToSummarize`, `contentSource`) pair; full page content is used
exactly when the guard passes and the fetched content is truthy and
longer than 100 characters. -/
def apiContentFor (r : SearchResult) (fetchOracle : String → FetchOutcome) : String × String :=
  if shouldFetch r.url then
    let pageContent := fetchPageContent (fetchOracle r.url)
    if pageContent != "" && pageContent.length > 100 then (pageContent, "full_page")
    else (r.snippet, "snippet")
  else (r.snippet, "snippet")

/-- The `try` body of one `/api/search` loop iteration (lines 387-418):
fetch decision, `generateSummary` (which never throws), and the pushed
record. -/
def apiProcessResult (r : SearchResult) (summaryLength : Nat)
    (fetchOracle : String → FetchOutcome) (modelOracle : String → ModelOutcome) : ApiSummary :=
  let pair := apiContentFor r fetchOracle
  { title := r.title, url := r.url, published := r.published
  , summary := generateSummary pair.1 summaryLength (modelOracle pair.1)
  , contentSource := pair.2
  , contentLength := some pair.1.length
  , errorMsg := none }

/-- The per-result `catch` of the `/api/search` loop (lines 419-429). -/
def apiCatchWrap (r : SearchResult) (step : SearchResult → Except String ApiSummary) :
    ApiSummary :=
  match step r with
  | .ok s => s
  | .error msg =>
    { title := r.title, url := r.url, published := r.published
    , summary := r.snippet, contentSource := "snippet_fallback"
    , contentLength := none, errorMsg := some msg }

/-- The whole `for (let i = 0; ...)` loop of `/api/search`
(lines 383-430). -/
def apiLoop (step : SearchResult → Except String ApiSummary)
    (results : List SearchResult) : List ApiSummary :=
  results.map (fun r => apiCatchWrap r step)

/-- The four shapes of `/api/search` response: the 400 on a falsy
`query`, the 500 from the outer catch, the "no results" JSON (whose
`results` array is empty and which carries the query), and the success
JSON carrying the query and the summaries. -/
inductive ApiResponse where
  | badRequest (errorMsg : String)
  | serverError (errorMsg : String)
  | noResults (query : String) (message : String)
  | success (query : String) (results : List ApiSummary)
  deriving DecidableEq

/-- The `POST /api/search` handler (lines 354-451).  The body fields
arrive as options (`undefined` when absent); `num_results = 5` and
`summary_length = 150` are the destructuring defaults; `if (!query)`
rejects an absent or empty query before `searchWeb` runs; a `searchWeb`
throw reaches the outer catch and becomes the 500 response.  Note that
`num_results` is never validated or clamped here, and no AI credential
is checked anywhere in the handler. -/
def apiHandler (query : Option String) (numResults : Option Nat) (summaryLength : Option Nat)
    (serperKey : Option String) (now : String) (searchOutcome : SearchOutcome)
    (fetchOracle : String → FetchOutcome) (modelOracle : String → ModelOutcome) : ApiResponse :=
  let q := query.getD ""
  if q = "" then .badRequest "Query parameter is required"
  else
    match searchWeb serperKey q (numResults.getD 5) now searchOutcome with
    | .error msg => .serverError msg
    | .ok results =>
      if results.length = 0 then .noResults q "No search results found"
      else
        .success q (apiLoop
          (fun r => .ok (apiProcessResult r (summaryLength.getD 150) fetchOracle modelOracle))
          results)

/-- The three shapes of MCP tool response: the zero-result text
(`isError` absent), the summarized results (their Markdown rendering,
lines 264-289, carries no further control flow and is not modelled),
and the outer-catch error text (`isError: true`). -/
inductive McpToolResponse where
  | noResults (text : String)
  | success (results : List SummarizedResult)
  | toolError (text : String)
  deriving DecidableEq

/-- The `search_and_summarize` tool callback (lines 197-301), after the
SDK has validated the arguments against the zod schema. -/
def mcpToolHandler (query : String) (numResults : Nat) (serperKey : Option String)
    (now : String) (searchOutcome : SearchOutcome)
    (fetchOracle : String → FetchOutcome) (modelOracle : String → ModelOutcome) :
    McpToolResponse :=
  match searchWeb serperKey query numResults now searchOutcome with
  | .error msg => .toolError ("Error processing search query \"" ++ query ++ "\": " ++ msg)
  | .ok searchResults =>
    if searchResults.length = 0 then
      .noResults ("No search results found for query: \"" ++ query ++
        "\". This could be due to API limitations or the query not returning any results.")
    else
      .success (mcpLoop (fun r => mcpStep r fetchOracle modelOracle) searchResults)

/-- The zod schema of the tool (lines 192-196):
`query: z.string().min(1)`,
`num_results: z.number().min(1).max(10).default(5)`,
`summary_length: z.number().min(50).max(500).default(150)`.
`none` models an absent argument (which triggers the default) and a
`none` result models a validation rejection.  Arguments are restricted
to naturals; the claims only exercise non-negative integers. -/
def mcpValidate (query : Option String) (numResults : Option Nat) (summaryLength : Option Nat) :
    Option (String × Nat × Nat) :=
  match query with
  | none => none
  | some q =>
    if q.length < 1 then none
    else
      match (match numResults with
             | none => some 5
             | some n => if 1 ≤ n ∧ n ≤ 10 then some n else none : Option Nat) with
      | none => none
      | some n =>
        match (match summaryLength with
               | none => some 150
               | some m => if 50 ≤ m ∧ m ≤ 500 then some m else none : Option Nat) with
        | none => none
        | some m => some (q, n, m)

/-- Statement-side abbreviation (not a source function): the upstream
category `searchWeb` actually draws from — the organic list when it is
non-empty, otherwise the news list, matching the fallback at
lines 102-113.  An absent category counts as empty. -/
def upstreamUsed (data : SerperData) : List SerperItem :=
  match data.organic with
  | some l => if l.length = 0 then data.news.getD [] else l
  | none => data.news.getD []

/-! Invariants of the extraction pipeline.  `NoTagSub s` says that no
`<` of `s` is ever followed (anywhere later) by a `>`; in particular no
substring of the shape `<...>` — such as a literal `<script>` or
`<style>` tag — can occur in `s`. -/

def NoTagSub (s : List Char) : Prop :=
  ∀ a b : List Char, s = a ++ '<' :: b → '>' ∉ b

theorem noTagSub_nil : NoTagSub [] := by
  intro a b h
  simp at h

theorem noTagSub_of_not_mem {s : List Char} (h : '>' ∉ s) : NoTagSub s := by
  intro a b hs hb
  exact h (hs ▸ List.mem_append_right a (List.mem_cons_of_mem _ hb))

theorem noTagSub_cons_of_ne {c : Char} {t : List Char} (hc : c ≠ '<') (h : NoTagSub t) :
    NoTagSub (c :: t) := by
  intro a b hs
  cases a with
  | nil => simp at hs; exact absurd hs.1 hc
  | cons a' as =>
    simp at hs
    exact h as b hs.2

theorem noTagSub_cons_lt {t : List Char} (hgt : '>' ∉ t) (h : NoTagSub t) :
    NoTagSub ('<' :: t) := by
  intro a b hs
  cases a with
  | nil => simp at hs; exact hs ▸ hgt
  | cons a' as =>
    simp at hs
    exact h as b hs.2

theorem noTagSub_of_cons {c : Char} {t : List Char} (h : NoTagSub (c :: t)) : NoTagSub t := by
  intro a b hs
  exact h (c :: a) b (by simp [hs])

theorem noTagSub_append_left {s t : List Char} (h : NoTagSub (s ++ t)) : NoTagSub s := by
  intro a b hs
  have hb := h a (b ++ t) (by simp [hs])
  intro hmem
  exact hb (List.mem_append_left t hmem)

theorem noTagSub_append_right {s t : List Char} (h : NoTagSub (s ++ t)) : NoTagSub t := by
  intro a b hs
  exact h (s ++ a) b (by simp [hs])

theorem stripTagsAux_noTagSub :
    ∀ s : List Char,
      NoTagSub (stripTagsAux none s) ∧
      ∀ pend : List Char, '>' ∉ pend → NoTagSub (stripTagsAux (some pend) s) := by
  intro s
  induction s with
  | nil =>
    refine ⟨by simpa [stripTagsAux] using noTagSub_nil, ?_⟩
    intro pend hp
    simp only [stripTagsAux]
    exact noTagSub_of_not_mem (by simpa using hp)
  | cons c rest ih =>
    constructor
    · by_cases hc : c = '<'
      · simp only [stripTagsAux, hc, if_pos rfl]
        exact ih.2 ['<'] (by simp)
      · simp only [stripTagsAux, if_neg hc]
        exact noTagSub_cons_of_ne hc ih.1
    · intro pend hp
      by_cases hc : c = '>'
      · simp only [stripTagsAux, hc, if_pos rfl]
        exact noTagSub_cons_of_ne (by decide) ih.1
      · simp only [stripTagsAux, if_neg hc]
        have hcp : '>' ∉ c :: pend := by
          intro hmem
          rcases List.mem_cons.mp hmem with h | h
          · exact hc h.symm
          · exact hp h
        exact ih.2 (c :: pend) hcp

theorem mem_collapseAux {x : Char} :
    ∀ (s : List Char) (b : Bool), x ∈ collapseAux b s → x ∈ s ∨ x = ' ' := by
  intro s
  induction s with
  | nil => intro b h; simp [collapseAux] at h
  | cons c rest ih =>
    intro b h
    by_cases hw : c.isWhitespace
    · cases b with
      | true =>
        simp only [collapseAux, hw, if_pos rfl] at h
        rcases ih true h with h' | h'
        · exact Or.inl (List.mem_cons_of_mem _ h')
        · exact Or.inr h'
      | false =>
        simp only [collapseAux, hw, if_pos rfl] at h
        rcases List.mem_cons.mp h with h' | h'
        · exact Or.inr h'
        · rcases ih true h' with h'' | h''
          · exact Or.inl (List.mem_cons_of_mem _ h'')
          · exact Or.inr h''
    · simp only [collapseAux, hw] at h
      rcases List.mem_cons.mp h with h' | h'
      · exact Or.inl (h' ▸ List.mem_cons_self _ _)
      · rcases ih false h' with h'' | h''
        · exact Or.inl (List.mem_cons_of_mem _ h'')
        · exact Or.inr h''

theorem collapseAux_noTagSub :
    ∀ (s : List Char) (b : Bool), NoTagSub s → NoTagSub (collapseAux b s) := by
  intro s
  induction s with
  | nil => intro b _; simpa [collapseAux] using noTagSub_nil
  | cons c rest ih =>
    intro b h
    have hrest : NoTagSub rest := noTagSub_of_cons h
    by_cases hw : c.isWhitespace
    · cases b with
      | true =>
        simp only [collapseAux, hw, if_pos rfl]
        exact ih true hrest
      | false =>
        simp only [collapseAux, hw, if_pos rfl]
        exact noTagSub_cons_of_ne (by decide) (ih true hrest)
    · simp only [collapseAux, hw, if_neg]
      by_cases hc : c = '<'
      · subst hc
        have hgt : '>' ∉ rest := h [] rest rfl
        have hgt' : '>' ∉ collapseAux false rest := by
          intro hmem
          rcases mem_collapseAux rest false hmem with h' | h'
          · exact hgt h'
          · exact absurd h' (by decide)
        exact noTagSub_cons_lt hgt' (ih false hrest)
      · exact noTagSub_cons_of_ne hc (ih false hrest)

theorem collapseAux_ws_space :
    ∀ (s : List Char) (b : Bool) (x : Char),
      x ∈ collapseAux b s → x.isWhitespace = true → x = ' ' := by
  intro s
  induction s with
  | nil => intro b x h; simp [collapseAux] at h
  | cons c rest ih =>
    intro b x h hx
    by_cases hw : c.isWhitespace
    · cases b with
      | true =>
        simp only [collapseAux, hw, if_pos rfl] at h
        exact ih true x h hx
      | false =>
        simp only [collapseAux, hw, if_pos rfl] at h
        rcases List.mem_cons.mp h with h' | h'
        · exact h'
        · exact ih true x h' hx
    · simp only [collapseAux, hw] at h
      rcases List.mem_cons.mp h with h' | h'
      · subst h'; simp [hw] at hx
      · exact ih false x h' hx

theorem collapseAux_head_true :
    ∀ (s : List Char) (c : Char),
      (collapseAux true s).head? = some c → c.isWhitespace = false := by
  intro s
  induction s with
  | nil => intro c h; simp [collapseAux] at h
  | cons c' rest ih =>
    intro c h
    by_cases hw : c'.isWhitespace
    · simp only [collapseAux, hw, if_pos rfl] at h
      exact ih c h
    · simp only [collapseAux, hw] at h
      simp at h
      subst h
      simpa using hw

/-- Adjacent characters of a collapsed string are never both
whitespace. -/
theorem collapseAux_chain :
    ∀ (s : List Char) (b : Bool),
      List.Chain' (fun a b : Char => ¬(a.isWhitespace = true ∧ b.isWhitespace = true))
        (collapseAux b s) := by
  intro s
  induction s with
  | nil => intro b; simp [collapseAux]
  | cons c rest ih =>
    intro b
    by_cases hw : c.isWhitespace
    · cases b with
      | true =>
        simp only [collapseAux, hw, if_pos rfl]
        exact ih true
      | false =>
        simp only [collapseAux, hw, if_pos rfl]
        refine List.chain'_cons'.mpr ⟨?_, ih true⟩
        intro y hy
        have := collapseAux_head_true rest y hy
        simp [this]
    · simp only [collapseAux, hw]
      refine List.chain'_cons'.mpr ⟨?_, ih false⟩
      intro y _
      simp [hw]

theorem dropWhile_head_not {p : Char → Bool} :
    ∀ (l : List Char) (c : Char), (l.dropWhile p).head? = some c → p c = false := by
  intro l
  induction l with
  | nil => intro c h; simp at h
  | cons a t ih =>
    intro c h
    by_cases hp : p a
    · rw [List.dropWhile_cons_of_pos hp] at h
      exact ih c h
    · rw [List.dropWhile_cons_of_neg hp] at h
      simp at h
      subst h
      simpa using hp

theorem head?_append_of_some {α : Type} {l₁ l₂ : List α} {c : α}
    (h : l₁.head? = some c) : (l₁ ++ l₂).head? = some c := by
  cases l₁ with
  | nil => simp at h
  | cons a t => simp at h; simp [h]

/-- The trimmed string sits inside the original between two (whitespace)
remainders. -/
theorem trim_decomp (s : List Char) :
    ∃ z₁ z₂ : List Char, s = z₁ ++ trimChars s ++ z₂ := by
  refine ⟨s.takeWhile Char.isWhitespace,
    ((s.dropWhile Char.isWhitespace).reverse.takeWhile Char.isWhitespace).reverse, ?_⟩
  conv_lhs => rw [← List.takeWhile_append_dropWhile (p := Char.isWhitespace) (l := s)]
  rw [List.append_assoc]
  congr 1
  conv_lhs => rw [← List.reverse_reverse (s.dropWhile Char.isWhitespace)]
  conv_lhs =>
    rw [← List.takeWhile_append_dropWhile (p := Char.isWhitespace)
      (l := (s.dropWhile Char.isWhitespace).reverse)]
  rw [List.reverse_append]
  rfl

theorem noTagSub_trimChars {s : List Char} (h : NoTagSub s) : NoTagSub (trimChars s) := by
  obtain ⟨z₁, z₂, hs⟩ := trim_decomp s
  rw [hs] at h
  exact noTagSub_append_right (noTagSub_append_left h)

theorem mem_trimChars {s : List Char} {x : Char} (h : x ∈ trimChars s) : x ∈ s := by
  obtain ⟨z₁, z₂, hs⟩ := trim_decomp s
  rw [hs]
  simp [h]

theorem trimChars_head_not_ws {s : List Char} {c : Char}
    (h : (trimChars s).head? = some c) : c.isWhitespace = false := by
  have hpre : (((s.dropWhile Char.isWhitespace).reverse.dropWhile Char.isWhitespace)).reverse
      <+: s.dropWhile Char.isWhitespace := by
    have hsuf := List.dropWhile_suffix (l := (s.dropWhile Char.isWhitespace).reverse)
      (p := Char.isWhitespace)
    have := List.reverse_prefix.mpr hsuf
    simpa using this
  obtain ⟨z, hz⟩ := hpre
  have hu : (s.dropWhile Char.isWhitespace).head? = some c := by
    rw [← hz]
    exact head?_append_of_some h
  exact dropWhile_head_not s c hu

theorem trimChars_getLast_not_ws {s : List Char} {c : Char}
    (h : (trimChars s).getLast? = some c) : c.isWhitespace = false := by
  rw [trimChars, List.getLast?_reverse] at h
  exact dropWhile_head_not _ c h

theorem head?_take {n : Nat} (hn : 0 < n) (l : List Char) :
    (List.take n l).head? = l.head? := by
  cases l with
  | nil => simp
  | cons c t =>
    cases n with
    | zero => omega
    | succ m => simp [List.take_succ_cons]

theorem noTagSub_take {s : List Char} (n : Nat) (h : NoTagSub s) : NoTagSub (s.take n) := by
  have := List.take_append_drop n s
  rw [← this] at h
  exact noTagSub_append_left h

theorem not_infix_of_noTagSub {s mid : List Char} (h : NoTagSub s) (hgt : '>' ∈ mid) :
    ¬ (('<' :: mid) <:+: s) := by
  rintro ⟨u, v, huv⟩
  have hs : s = u ++ '<' :: (mid ++ v) := by
    rw [← huv]
    simp
  exact h u (mid ++ v) hs (List.mem_append_left v hgt)

theorem extractChars_eq (html : List Char) :
    extractChars html =
      (trimChars (collapseWs (stripTags
        (stripBlocks styleOpen styleClose
          (stripBlocks scriptOpen scriptClose html))))).take 5000 := rfl

/-- C7 (amended): for every input markup string, the extractor output
has at most 5000 characters, contains no `<script>` and no `<style>`
substring, never has two adjacent whitespace characters, renders every
whitespace character as a plain space, and has no leading whitespace;
the output is additionally free of trailing whitespace whenever the
5000-character truncation did not cut the text short. -/
theorem c7_amended (html : String) :
    (extractMainContent html).length ≤ 5000
    ∧ ¬ ("<script>".data <:+: (extractMainContent html).data)
    ∧ ¬ ("<style>".data <:+: (extractMainContent html).data)
    ∧ List.Chain' (fun a b : Char => ¬(a.isWhitespace = true ∧ b.isWhitespace = true))
        (extractMainContent html).data
    ∧ (∀ c ∈ (extractMainContent html).data, c.isWhitespace = true → c = ' ')
    ∧ (∀ c : Char, (extractMainContent html).data.head? = some c → c.isWhitespace = false)
    ∧ ((extractMainContent html).data.length < 5000 →
        ∀ c : Char, (extractMainContent html).data.getLast? = some c →
          c.isWhitespace = false) := by
  have hdata : (extractMainContent html).data = extractChars html.data := rfl
  set c2 := stripBlocks styleOpen styleClose (stripBlocks scriptOpen scriptClose html.data)
    with hc2
  have hout : extractChars html.data = (trimChars (collapseWs (stripTags c2))).take 5000 :=
    extractChars_eq html.data
  set c4 := trimChars (collapseWs (stripTags c2)) with hc4
  have hnts : NoTagSub (c4.take 5000) :=
    noTagSub_take 5000 (noTagSub_trimChars (collapseAux_noTagSub _ false
      (stripTagsAux_noTagSub c2).1))
  refine ⟨?_, ?_, ?_, ?_, ?_, ?_, ?_⟩
  · show (extractChars html.data).length ≤ 5000
    rw [hout]
    simpa using List.length_take_le 5000 c4
  · rw [hdata, hout]
    have : "<script>".data = '<' :: "script>".data := rfl
    rw [this]
    exact not_infix_of_noTagSub hnts (by decide)
  · rw [hdata, hout]
    have : "<style>".data = '<' :: "style>".data := rfl
    rw [this]
    exact not_infix_of_noTagSub hnts (by decide)
  · rw [hdata, hout]
    have hch := collapseAux_chain (stripTags c2) false
    have hch2 : List.Chain' (fun a b : Char =>
        ¬(a.isWhitespace = true ∧ b.isWhitespace = true)) c4 := by
      obtain ⟨z₁, z₂, hz⟩ := trim_decomp (collapseWs (stripTags c2))
      exact List.Chain'.infix hch ⟨z₁, z₂, by rw [← hz]; rfl⟩
    exact List.Chain'.infix hch2 ⟨[], c4.drop 5000, by simp⟩
  · rw [hdata, hout]
    intro c hc hws
    have hc4mem : c ∈ c4 := List.mem_of_mem_take hc
    have hcol : c ∈ collapseWs (stripTags c2) := mem_trimChars hc4mem
    exact collapseAux_ws_space _ false c hcol hws
  · rw [hdata, hout]
    intro c hc
    rw [head?_take (by omega) c4] at hc
    exact trimChars_head_not_ws hc
  · rw [hdata, hout]
    intro hlen c hc
    have hc4len : c4.length < 5000 := by
      rw [List.length_take] at hlen
      omega
    rw [List.take_all_of_le (by omega)] at hc
    exact trimChars_getLast_not_ws hc

/-- Concrete input family for exercising the truncation: `pat n` is the
2n-character text made of n copies of `"a "`. -/
def pat : Nat → List Char
  | 0 => []
  | n + 1 => 'a' :: ' ' :: pat n

theorem pat_mem : ∀ (n : Nat) (c : Char), c ∈ pat n → c = 'a' ∨ c = ' ' := by
  intro n
  induction n with
  | zero => intro c h; simp [pat] at h
  | succ m ih =>
    intro c h
    rcases List.mem_cons.mp h with h' | h'
    · exact Or.inl h'
    · rcases List.mem_cons.mp h' with h'' | h''
      · exact Or.inr h''
      · exact ih c h''

theorem pat_length : ∀ n : Nat, (pat n).length = 2 * n := by
  intro n
  induction n with
  | zero => simp [pat]
  | succ m ih => simp [pat, ih]; omega

theorem pat_getLast : ∀ n : Nat, (pat (n + 1)).getLast? = some ' ' := by
  intro n
  induction n with
  | zero => rfl
  | succ m ih =>
    show ('a' :: ' ' :: pat (m + 1)).getLast? = some ' '
    have hp : pat (m + 1) = 'a' :: ' ' :: pat m := rfl
    rw [List.getLast?_cons_cons, hp, List.getLast?_cons_cons, ← hp, ih]

theorem stripBlocks_id_of_noLt (tl closing : List Char) :
    ∀ s : List Char, (∀ c ∈ s, ciEq '<' c = false) →
      stripBlocks ('<' :: tl) closing s = s := by
  intro s
  induction s with
  | nil => intro _; simp [stripBlocks]
  | cons c rest ih =>
    intro h
    have hc : ciEq '<' c = false := h c (List.mem_cons_self c rest)
    have hpre : isPrefixCI ('<' :: tl) (c :: rest) = false := by
      simp [isPrefixCI, hc]
    rw [stripBlocks, if_neg (by simp [hpre])]
    rw [ih (fun x hx => h x (List.mem_cons_of_mem c hx))]

theorem stripTagsAux_id_of_noLt :
    ∀ s : List Char, (∀ c ∈ s, c ≠ '<') → stripTagsAux none s = s := by
  intro s
  induction s with
  | nil => intro _; rfl
  | cons c rest ih =>
    intro h
    have hc : c ≠ '<' := h c (List.mem_cons_self c rest)
    simp only [stripTagsAux, if_neg hc]
    rw [ih (fun x hx => h x (List.mem_cons_of_mem c hx))]

theorem collapseAux_patA : ∀ (n : Nat) (b : Bool),
    collapseAux b (pat n ++ ['a']) = pat n ++ ['a'] := by
  intro n
  induction n with
  | zero =>
    intro b
    show collapseAux b ['a'] = ['a']
    simp [collapseAux]
  | succ m ih =>
    intro b
    show collapseAux b ('a' :: ' ' :: (pat m ++ ['a'])) = 'a' :: ' ' :: (pat m ++ ['a'])
    simp only [collapseAux]
    rw [if_neg (by decide), if_pos (by decide), ih true]
    simp

theorem pat_succ (n : Nat) : pat (n + 1) = 'a' :: ' ' :: pat n := rfl

theorem trim_patA : ∀ n : Nat, trimChars (pat n ++ ['a']) = pat n ++ ['a'] := by
  intro n
  cases n with
  | zero => decide
  | succ m =>
    have h0 : pat (m + 1) ++ ['a'] = 'a' :: (' ' :: (pat m ++ ['a'])) := by
      rw [pat_succ]
      simp
    have hdw : (pat (m + 1) ++ ['a']).dropWhile Char.isWhitespace = pat (m + 1) ++ ['a'] := by
      rw [h0, List.dropWhile_cons_of_neg (by decide)]
    have hrev : (pat (m + 1) ++ ['a']).reverse = 'a' :: (pat (m + 1)).reverse := by
      rw [List.reverse_append]
      rfl
    show (((pat (m + 1) ++ ['a']).dropWhile Char.isWhitespace).reverse.dropWhile
        Char.isWhitespace).reverse = pat (m + 1) ++ ['a']
    rw [hdw, hrev, List.dropWhile_cons_of_neg (by decide), ← hrev, List.reverse_reverse]

/-- 5001 characters of plain text (`"a a ... a a"`): long enough that
the 5000-character truncation cuts it, and cut exactly after a space. -/
def cexChars : List Char := pat 2500 ++ ['a']

def cexHtml : String := ⟨cexChars⟩

/-- C7 (counterexample): the extractor output is NOT always trimmed of
trailing whitespace.  On a 5001-character plain text the code first
trims, then truncates to 5000 characters, and the cut lands right after
a space, so the returned excerpt ends in a whitespace character. -/
theorem c7_counterexample :
    (extractMainContent cexHtml).data.getLast? = some ' '
    ∧ (' ').isWhitespace = true := by
  constructor
  · have hmem : ∀ c ∈ cexChars, c = 'a' ∨ c = ' ' := by
      intro c hc
      rcases List.mem_append.mp hc with h | h
      · exact pat_mem 2500 c h
      · simp at h
        exact Or.inl h
    have hci : ∀ c ∈ cexChars, ciEq '<' c = false := by
      intro c hc
      rcases hmem c hc with h | h <;> subst h <;> decide
    have hne : ∀ c ∈ cexChars, c ≠ '<' := by
      intro c hc
      rcases hmem c hc with h | h <;> subst h <;> decide
    have e1 : stripBlocks scriptOpen scriptClose cexChars = cexChars := by
      have hso : scriptOpen = '<' :: "script".data := rfl
      rw [hso]
      exact stripBlocks_id_of_noLt _ _ _ hci
    have e2 : stripBlocks styleOpen styleClose cexChars = cexChars := by
      have hso : styleOpen = '<' :: "style".data := rfl
      rw [hso]
      exact stripBlocks_id_of_noLt _ _ _ hci
    have e3 : stripTags cexChars = cexChars := stripTagsAux_id_of_noLt _ hne
    have e4 : collapseWs cexChars = cexChars := collapseAux_patA 2500 false
    have e5 : trimChars cexChars = cexChars := trim_patA 2500
    have hlen : (pat 2500).length = 5000 := by
      rw [pat_length]
    have e6 : cexChars.take 5000 = pat 2500 := by
      show (pat 2500 ++ ['a']).take 5000 = pat 2500
      exact List.take_left' hlen
    have hout : (extractMainContent cexHtml).data =
        (trimChars (collapseWs (stripTags
          (stripBlocks styleOpen styleClose
            (stripBlocks scriptOpen scriptClose cexChars))))).take 5000 := rfl
    rw [hout, e1, e2, e3, e4, e5, e6]
    exact pat_getLast 2499
  · decide

/-- A small evaluation: on plain text with no `<`, `extractMainContent`
is computable by `decide` once the two (well-founded recursive)
block-stripping passes are rewritten away. -/
theorem extract_xy : extractMainContent "x y" = "x y" := by
  have h1 : stripBlocks scriptOpen scriptClose "x y".data = "x y".data := by
    rw [show scriptOpen = '<' :: "script".data from rfl]
    exact stripBlocks_id_of_noLt _ _ _ (by decide)
  have h2 : stripBlocks styleOpen styleClose "x y".data = "x y".data := by
    rw [show styleOpen = '<' :: "style".data from rfl]
    exact stripBlocks_id_of_noLt _ _ _ (by decide)
  have hout : extractMainContent "x y" =
      ⟨(trimChars (collapseWs (stripTags
        (stripBlocks styleOpen styleClose
          (stripBlocks scriptOpen scriptClose "x y".data))))).take 5000⟩ := rfl
  rw [hout, h1, h2]
  decide

/-- Witness for the amended C7 theorem at the concrete input `"x y"`. -/
theorem c7_witness : 'x'.isWhitespace = false ∧ 'y'.isWhitespace = false := by
  have h := c7_amended "x y"
  constructor
  · exact h.2.2.2.2.2.1 'x' (by rw [extract_xy]; rfl)
  · exact h.2.2.2.2.2.2 (by rw [extract_xy]; decide) 'y' (by rw [extract_xy]; rfl)

/-- The collection phase of `searchWeb`, rephrased through
`upstreamUsed`: the output is always the normalized `numResults`-prefix
of the category the code draws from. -/
theorem buildResults_eq (data : SerperData) (numResults : Nat) (now : String) :
    buildResults data numResults now =
      ((upstreamUsed data).take numResults).map (normalizeResult now) := by
  rcases data with ⟨organic, news⟩
  cases organic with
  | none =>
    cases news with
    | none => simp [buildResults, upstreamUsed]
    | some m => simp [buildResults, upstreamUsed]
  | some l =>
    cases l with
    | nil =>
      cases news with
      | none => simp [buildResults, upstreamUsed]
      | some m => simp [buildResults, upstreamUsed]
    | cons i rest =>
      cases numResults with
      | zero =>
        cases news with
        | none => simp [buildResults, upstreamUsed]
        | some m => simp [buildResults, upstreamUsed]
      | succ k =>
        have hne : (((i :: rest).take (k + 1)).map (normalizeResult now)).length ≠ 0 := by
          simp [List.length_take]
        simp only [buildResults, upstreamUsed]
        rw [if_neg hne, if_neg (by simp)]

theorem apiLoop_ok (f : SearchResult → ApiSummary) (l : List SearchResult) :
    apiLoop (fun r => .ok (f r)) l = l.map f := by
  simp [apiLoop, apiCatchWrap]

/-- C1: for every valid request with `numResults = k` and a successful
upstream search, `searchWeb` returns exactly the normalized `k`-prefix
of the upstream category in upstream rank order — hence
`min k upstream_available` results, even when upstream returned more —
and the `/api/search` response carries exactly one summarized result
per search result, in the same order. -/
theorem c1_response_truncation_and_order
    (key q text now : String) (k sl status : Nat) (data : SerperData)
    (fo : String → FetchOutcome) (mo : String → ModelOutcome)
    (hkey : key ≠ "") (hst : statusOk status = true) (hq : q ≠ "") :
    searchWeb (some key) q k now (.response status text (.ok data))
      = .ok (((upstreamUsed data).take k).map (normalizeResult now))
    ∧ (((upstreamUsed data).take k).map (normalizeResult now)).length
        = min k (upstreamUsed data).length
    ∧ ((upstreamUsed data).take k ≠ [] →
        apiHandler (some q) (some k) (some sl) (some key) now
            (.response status text (.ok data)) fo mo
          = .success q (((upstreamUsed data).take k).map (fun item =>
              apiProcessResult (normalizeResult now item) sl fo mo))) := by
  have hsw : searchWeb (some key) q k now (.response status text (.ok data))
      = .ok (((upstreamUsed data).take k).map (normalizeResult now)) := by
    simp [searchWeb, hkey, hst, buildResults_eq]
  refine ⟨hsw, by simp [List.length_take], ?_⟩
  intro hne
  simp only [apiHandler, Option.getD_some, if_neg hq, hsw]
  rw [if_neg (by simpa using hne), apiLoop_ok]
  rw [List.map_map]
  rfl

theorem c1_witness :
    apiHandler (some "q") (some 2) (some 150) (some "K") "T"
        (.response 200 "" (.ok ⟨some [⟨some "t1", some "u1", some "s1", some "d1"⟩,
          ⟨none, none, none, none⟩, ⟨some "t3", none, none, none⟩], none⟩))
        (fun _ => .transportError "net") (fun _ => .error "down")
      = .success "q"
          [{ title := "t1", url := "u1", published := "d1", summary := "s1"
           , contentSource := "snippet", contentLength := some 2, errorMsg := none }
          , { title := "No title", url := "", published := "T"
            , summary := "No description available", contentSource := "snippet"
            , contentLength := some 24, errorMsg := none }] := by
  have h := c1_response_truncation_and_order "K" "q" "" "T" 2 150 200
    ⟨some [⟨some "t1", some "u1", some "s1", some "d1"⟩,
      ⟨none, none, none, none⟩, ⟨some "t3", none, none, none⟩], none⟩
    (fun _ => .transportError "net") (fun _ => .error "down")
    (by decide) (by decide) (by decide)
  rw [h.2.2 (by decide)]
  decide

/-- C2: the fetch attempt is gated by
`url ≠ "" && !url.includes('example.com')` — when the guard fails, both
loops ignore the fetch oracle entirely; when it holds, the MCP loop
summarizes the fetched text exactly when it is non-empty and strictly
longer than the snippet, while the REST loop additionally requires more
than 100 characters and tags the record `full_page`; in every other
case (in particular whenever the fetch fails and yields `""`) the
snippet is what gets summarized and the REST tag stays `snippet`. -/
theorem c2_fetch_gating (r : SearchResult) (sl : Nat)
    (fo fo' : String → FetchOutcome) (mo : String → ModelOutcome) :
    (shouldFetch r.url = false →
      mcpContentFor r fo = r.snippet
      ∧ apiContentFor r fo = (r.snippet, "snippet")
      ∧ mcpContentFor r fo = mcpContentFor r fo'
      ∧ apiProcessResult r sl fo mo = apiProcessResult r sl fo' mo)
    ∧ (shouldFetch r.url = true →
        ((fetchPageContent (fo r.url) ≠ "" ∧
            (fetchPageContent (fo r.url)).length > r.snippet.length) →
          mcpContentFor r fo = fetchPageContent (fo r.url))
        ∧ (¬(fetchPageContent (fo r.url) ≠ "" ∧
              (fetchPageContent (fo r.url)).length > r.snippet.length) →
            mcpContentFor r fo = r.snippet)
        ∧ ((fetchPageContent (fo r.url) ≠ "" ∧
              (fetchPageContent (fo r.url)).length > 100) →
            apiContentFor r fo = (fetchPageContent (fo r.url), "full_page"))
        ∧ (¬(fetchPageContent (fo r.url) ≠ "" ∧
              (fetchPageContent (fo r.url)).length > 100) →
            apiContentFor r fo = (r.snippet, "snippet")))
    ∧ (fetchPageContent (fo r.url) = "" →
        (apiProcessResult r sl fo mo).contentSource = "snippet"
        ∧ (apiProcessResult r sl fo mo).summary
            = generateSummary r.snippet sl (mo r.snippet)
        ∧ mcpContentFor r fo = r.snippet) := by
  refine ⟨?_, ?_, ?_⟩
  · intro hsf
    refine ⟨by simp [mcpContentFor, hsf], by simp [apiContentFor, hsf],
      by simp [mcpContentFor, hsf], ?_⟩
    simp [apiProcessResult, apiContentFor, hsf]
  · intro hsf
    refine ⟨?_, ?_, ?_, ?_⟩
    · rintro ⟨h1, h2⟩
      simp [mcpContentFor, hsf, h1, h2]
    · intro hno
      by_cases h1 : fetchPageContent (fo r.url) = ""
      · simp [mcpContentFor, hsf, h1]
      · have h2 : ¬((fetchPageContent (fo r.url)).length > r.snippet.length) :=
          fun hgt => hno ⟨h1, hgt⟩
        simp [mcpContentFor, hsf, h1, h2]
    · rintro ⟨h1, h2⟩
      simp [apiContentFor, hsf, h1, h2]
    · intro hno
      by_cases h1 : fetchPageContent (fo r.url) = ""
      · simp [apiContentFor, hsf, h1]
      · have h2 : ¬((fetchPageContent (fo r.url)).length > 100) :=
          fun hgt => hno ⟨h1, hgt⟩
        simp [apiContentFor, hsf, h1, h2]
  · intro hpe
    by_cases hsf : shouldFetch r.url
    · refine ⟨?_, ?_, ?_⟩
      · simp [apiProcessResult, apiContentFor, hsf, hpe]
      · simp [apiProcessResult, apiContentFor, hsf, hpe]
      · simp [mcpContentFor, hsf, hpe]
    · refine ⟨?_, ?_, ?_⟩
      · simp [apiProcessResult, apiContentFor, hsf]
      · simp [apiProcessResult, apiContentFor, hsf]
      · simp [mcpContentFor, hsf]

/-- A 138-character tag-free page body used as a fetched page in
witnesses; long enough to clear the 100-character threshold. -/
def longPage : String :=
  "The quick brown fox jumps over the lazy dog while the verification of the summarization pipeline proceeds along the straight and narrow."

set_option maxRecDepth 8000 in
theorem extract_longPage : extractMainContent longPage = longPage := by
  have h1 : stripBlocks scriptOpen scriptClose longPage.data = longPage.data := by
    rw [show scriptOpen = '<' :: "script".data from rfl]
    exact stripBlocks_id_of_noLt _ _ _ (by decide)
  have h2 : stripBlocks styleOpen styleClose longPage.data = longPage.data := by
    rw [show styleOpen = '<' :: "style".data from rfl]
    exact stripBlocks_id_of_noLt _ _ _ (by decide)
  have hout : extractMainContent longPage =
      ⟨(trimChars (collapseWs (stripTags
        (stripBlocks styleOpen styleClose
          (stripBlocks scriptOpen scriptClose longPage.data))))).take 5000⟩ := rfl
  rw [hout, h1, h2]
  decide

set_option maxRecDepth 4000 in
theorem c2_witness :
    apiContentFor ⟨"t", "http://news.site/a", "short", "T"⟩
        (fun _ => .response 200 (.ok longPage))
      = (longPage, "full_page")
    ∧ mcpContentFor ⟨"t", "u", "s", "T"⟩ (fun _ => .transportError "net") = "s" := by
  have hfp : fetchPageContent (.response 200 (.ok longPage)) = longPage := by
    have hstep : fetchPageContent (.response 200 (.ok longPage))
        = extractMainContent longPage := by
      simp [fetchPageContent, statusOk]
    rw [hstep, extract_longPage]
  constructor
  · have h := c2_fetch_gating ⟨"t", "http://news.site/a", "short", "T"⟩ 150
      (fun _ => .response 200 (.ok longPage)) (fun _ => .response 200 (.ok longPage))
      (fun _ => .error "x")
    have happ := (h.2.1 (by decide)).2.2.1
      ⟨by rw [hfp]; decide, by rw [hfp]; decide⟩
    rw [hfp] at happ
    exact happ
  · have h := c2_fetch_gating ⟨"t", "u", "s", "T"⟩ 150
      (fun _ => .transportError "net") (fun _ => .transportError "net")
      (fun _ => .error "x")
    exact (h.2.2 rfl).2.2

/-- `nowhereCI opening s`: the opening literal matches at no position of
`s`, so the block-stripping regex finds nothing. -/
def nowhereCI (opening : List Char) : List Char → Bool
  | [] => true
  | c :: rest => !(isPrefixCI opening (c :: rest)) && nowhereCI opening rest

theorem stripBlocks_id_of_nowhere (opening closing : List Char) :
    ∀ s : List Char, nowhereCI opening s = true → stripBlocks opening closing s = s := by
  intro s
  induction s with
  | nil => intro _; simp [stripBlocks]
  | cons c rest ih =>
    intro h
    simp only [nowhereCI, Bool.and_eq_true, Bool.not_eq_true'] at h
    rw [stripBlocks, if_neg (by simp [h.1]), ih h.2]

theorem extract_phi : extractMainContent "<p>hi</p>" = "hi" := by
  have h1 : stripBlocks scriptOpen scriptClose "<p>hi</p>".data = "<p>hi</p>".data :=
    stripBlocks_id_of_nowhere _ _ _ (by decide)
  have h2 : stripBlocks styleOpen styleClose "<p>hi</p>".data = "<p>hi</p>".data :=
    stripBlocks_id_of_nowhere _ _ _ (by decide)
  have hout : extractMainContent "<p>hi</p>" =
      ⟨(trimChars (collapseWs (stripTags
        (stripBlocks styleOpen styleClose
          (stripBlocks scriptOpen scriptClose "<p>hi</p>".data))))).take 5000⟩ := rfl
  rw [hout, h1, h2]
  decide

/-- C3 (counterexample): on a 2xx response with body `"<p>hi</p>"`,
`fetchPageContent` returns the extracted text `"hi"`, not the page's
raw markup, refuting the "returns the page's raw markup" part of the
claim. -/
theorem c3_counterexample :
    fetchPageContent (.response 200 (.ok "<p>hi</p>")) ≠ "<p>hi</p>"
    ∧ fetchPageContent (.response 200 (.ok "<p>hi</p>")) = "hi" := by
  have hstep : fetchPageContent (.response 200 (.ok "<p>hi</p>"))
      = extractMainContent "<p>hi</p>" := by
    simp [fetchPageContent, statusOk]
  constructor
  · rw [hstep, extract_phi]
    decide
  · rw [hstep, extract_phi]

/-- C3 (amended): `fetchPageContent` never throws to its caller; any
transport error, non-2xx status, or body-read failure yields `""`
(which the pipeline treats as "no usable content"), and a readable 2xx
body yields the extracted main content of the markup — not the raw
markup itself. -/
theorem c3_amended (msg : String) (status : Nat) (b : BodyRead) (html : String) :
    fetchPageContent (.transportError msg) = ""
    ∧ (statusOk status = false → fetchPageContent (.response status b) = "")
    ∧ (statusOk status = true → fetchPageContent (.response status (.readError msg)) = "")
    ∧ (statusOk status = true →
        fetchPageContent (.response status (.ok html)) = extractMainContent html) := by
  refine ⟨rfl, ?_, ?_, ?_⟩
  · intro h
    simp [fetchPageContent, h]
  · intro h
    simp [fetchPageContent, h]
  · intro h
    simp [fetchPageContent, h]

theorem c3_witness :
    fetchPageContent (.transportError "boom") = ""
    ∧ fetchPageContent (.response 404 (.ok "<p>hi</p>")) = ""
    ∧ fetchPageContent (.response 200 (.readError "bad body")) = ""
    ∧ fetchPageContent (.response 200 (.ok "")) = extractMainContent "" := by
  refine ⟨(c3_amended "boom" 404 (.ok "<p>hi</p>") "x").1,
    (c3_amended "boom" 404 (.ok "<p>hi</p>") "x").2.1 (by decide),
    (c3_amended "bad body" 200 (.ok "x") "x").2.2.1 (by decide),
    (c3_amended "x" 200 (.ok "") "").2.2.2 (by decide)⟩

/-- C4: `generateSummary` is total: empty or whitespace-only content
short-circuits to the fixed literal (without consulting the model
outcome at all), a successful model call returns its text, and a model
failure deterministically truncates the content to
`summaryLength * 5` characters. -/
theorem c4_summarizer_fallback (content : String) (sl : Nat)
    (m m₁ m₂ : ModelOutcome) (t msg : String) :
    (isBlankContent content = true →
      generateSummary content sl m = "No content available to summarize."
      ∧ generateSummary content sl m₁ = generateSummary content sl m₂)
    ∧ (isBlankContent content = false →
        generateSummary content sl (.ok t) = t
        ∧ generateSummary content sl (.error msg) = ⟨content.data.take (sl * 5)⟩) := by
  constructor
  · intro h
    exact ⟨by simp [generateSummary, h], by simp [generateSummary, h]⟩
  · intro h
    exact ⟨by simp [generateSummary, h], by simp [generateSummary, h]⟩

theorem c4_witness :
    generateSummary "   " 150 (.ok "ignored") = "No content available to summarize."
    ∧ generateSummary "hello world" 2 (.error "model down") = "hello worl" := by
  constructor
  · exact ((c4_summarizer_fallback "   " 150 (.ok "ignored") (.ok "a") (.ok "b")
      "t" "m").1 (by decide)).1
  · have h := ((c4_summarizer_fallback "hello world" 2 (.ok "a") (.ok "a") (.ok "b")
      "t" "model down").2 (by decide)).2
    rw [h]
    decide

/-- C5: whenever the per-result step of a loop throws (the only case
the surrounding catch exists for), that result is still emitted — in
the REST loop with `summary = snippet`, `contentSource =
snippet_fallback` and the error message recorded; in the MCP loop with
the snippet as summary — at its original position, and every other
result of the batch is processed exactly as if the failure had not
happened (the loop length always equals the input length). -/
theorem c5_per_result_isolation
    (results : List SearchResult) (step : SearchResult → Except String ApiSummary)
    (i : Nat) (r : SearchResult) (msg : String)
    (hi : results[i]? = some r) (hstep : step r = .error msg) :
    (apiLoop step results).length = results.length
    ∧ (apiLoop step results)[i]? = some
        { title := r.title, url := r.url, published := r.published
        , summary := r.snippet, contentSource := "snippet_fallback"
        , contentLength := none, errorMsg := some msg }
    ∧ (∀ (j : Nat) (r' : SearchResult) (s : ApiSummary),
        results[j]? = some r' → step r' = .ok s → (apiLoop step results)[j]? = some s)
    ∧ (∀ (mstep : SearchResult → Except String SummarizedResult) (msg' : String),
        mstep r = .error msg' →
          (mcpLoop mstep results).length = results.length
          ∧ (mcpLoop mstep results)[i]? = some
              { title := r.title, url := r.url, summary := r.snippet
              , published := r.published, originalSnippet := r.snippet }) := by
  refine ⟨by simp [apiLoop], ?_, ?_, ?_⟩
  · rw [apiLoop, List.getElem?_map, hi]
    simp [apiCatchWrap, hstep]
  · intro j r' s hj hs
    rw [apiLoop, List.getElem?_map, hj]
    simp [apiCatchWrap, hs]
  · intro mstep msg' hm
    refine ⟨by simp [mcpLoop], ?_⟩
    rw [mcpLoop, List.getElem?_map, hi]
    simp [mcpCatchWrap, hm]

theorem c5_witness :
    (apiLoop (fun _ => .error "boom") [⟨"t", "u", "s", "P"⟩])[0]? = some
      { title := "t", url := "u", published := "P", summary := "s"
      , contentSource := "snippet_fallback", contentLength := none
      , errorMsg := some "boom" }
    ∧ (mcpLoop (fun _ => .error "mboom") [⟨"t", "u", "s", "P"⟩])[0]? = some
      { title := "t", url := "u", summary := "s", published := "P"
      , originalSnippet := "s" } := by
  have h := c5_per_result_isolation [⟨"t", "u", "s", "P"⟩] (fun _ => .error "boom")
    0 ⟨"t", "u", "s", "P"⟩ "boom" rfl rfl
  exact ⟨h.2.1, (h.2.2.2 (fun _ => .error "mboom") "mboom" rfl).2⟩

/-- C6: when the upstream search yields zero organic and zero news
results, `searchWeb` returns the empty list and both entry points
short-circuit to their explicit "no results" response, which names the
query and carries no per-result entries; the per-result machinery is
never run — the response does not depend on the fetch or model oracles
at all. -/
theorem c6_zero_results_short_circuit
    (q key text now : String) (k sl status : Nat) (data : SerperData)
    (fo fo' : String → FetchOutcome) (mo mo' : String → ModelOutcome)
    (hq : q ≠ "") (hkey : key ≠ "") (hst : statusOk status = true)
    (ho : data.organic = some [] ∨ data.organic = none)
    (hn : data.news = some [] ∨ data.news = none) :
    searchWeb (some key) q k now (.response status text (.ok data)) = .ok []
    ∧ apiHandler (some q) (some k) (some sl) (some key) now
        (.response status text (.ok data)) fo mo
      = .noResults q "No search results found"
    ∧ mcpToolHandler q k (some key) now (.response status text (.ok data)) fo mo
      = .noResults ("No search results found for query: \"" ++ q ++
          "\". This could be due to API limitations or the query not returning any results.")
    ∧ apiHandler (some q) (some k) (some sl) (some key) now
        (.response status text (.ok data)) fo mo
      = apiHandler (some q) (some k) (some sl) (some key) now
          (.response status text (.ok data)) fo' mo'
    ∧ mcpToolHandler q k (some key) now (.response status text (.ok data)) fo mo
      = mcpToolHandler q k (some key) now (.response status text (.ok data)) fo' mo' := by
  have hu : upstreamUsed data = [] := by
    rcases ho with h | h <;> rcases hn with h' | h' <;>
      rcases data with ⟨organic, news⟩ <;> simp_all [upstreamUsed]
  have hsw : searchWeb (some key) q k now (.response status text (.ok data)) = .ok [] := by
    simp [searchWeb, hkey, hst, buildResults_eq, hu]
  have hapi : apiHandler (some q) (some k) (some sl) (some key) now
      (.response status text (.ok data)) fo mo = .noResults q "No search results found" := by
    simp [apiHandler, hq, hsw]
  have hapi' : apiHandler (some q) (some k) (some sl) (some key) now
      (.response status text (.ok data)) fo' mo' = .noResults q "No search results found" := by
    simp [apiHandler, hq, hsw]
  have hmcp : mcpToolHandler q k (some key) now (.response status text (.ok data)) fo mo
      = .noResults ("No search results found for query: \"" ++ q ++
          "\". This could be due to API limitations or the query not returning any results.") := by
    simp [mcpToolHandler, hsw]
  have hmcp' : mcpToolHandler q k (some key) now (.response status text (.ok data)) fo' mo'
      = .noResults ("No search results found for query: \"" ++ q ++
          "\". This could be due to API limitations or the query not returning any results.") := by
    simp [mcpToolHandler, hsw]
  exact ⟨hsw, hapi, hmcp, hapi.trans hapi'.symm, hmcp.trans hmcp'.symm⟩

theorem c6_witness :
    searchWeb (some "K") "quantum computing" 5 "T"
        (.response 200 "" (.ok ⟨some [], none⟩)) = .ok []
    ∧ apiHandler (some "quantum computing") (some 5) (some 150) (some "K") "T"
        (.response 200 "" (.ok ⟨some [], none⟩)) (fun _ => .transportError "a")
        (fun _ => .error "b")
      = .noResults "quantum computing" "No search results found" := by
  have h := c6_zero_results_short_circuit "quantum computing" "K" "" "T" 5 150 200
    ⟨some [], none⟩ (fun _ => .transportError "a") (fun _ => .transportError "a2")
    (fun _ => .error "b") (fun _ => .error "b2")
    (by decide) (by decide) (by decide) (Or.inl rfl) (Or.inr rfl)
  exact ⟨h.1, h.2.1⟩

theorem length_not_lt_one_of_ne {q : String} (h : q ≠ "") : ¬(q.length < 1) := by
  intro hl
  apply h
  rcases q with ⟨d⟩
  have hlen : d.length = 0 := by
    have he : (String.mk d).length = d.length := rfl
    omega
  have hd : d = [] := List.length_eq_zero.mp hlen
  subst hd
  rfl

/-- C8 (counterexample): a request with `numResults` missing is NOT
rejected — the MCP schema substitutes the default 5 — and the REST
endpoint does not validate `numResults` at all: with `num_results = 0`
the request sails past validation and the Serper network call is made
(the response depends on the search outcome: an upstream reply produces
a "no results" answer, a transport failure the 500 error). -/
theorem c8_counterexample :
    mcpValidate (some "q") none none = some ("q", 5, 150)
    ∧ apiHandler (some "q") (some 0) none (some "K") "T"
        (.response 200 "" (.ok ⟨none, none⟩)) (fun _ => .transportError "e")
        (fun _ => .error "e")
      = .noResults "q" "No search results found"
    ∧ apiHandler (some "q") (some 0) none (some "K") "T" (.transportError "boom")
        (fun _ => .transportError "e") (fun _ => .error "e")
      = .serverError "boom" := by
  refine ⟨rfl, ?_, ?_⟩ <;> decide

/-- C8 (amended): the MCP zod schema rejects an absent or empty query
and any `num_results` outside 1..10 (0 and 11 included), while an
absent `num_results` defaults to 5 and is accepted; the REST endpoint
rejects only an absent or empty `query` (before the search call,
regardless of the network), performs no validation or clamping of
`num_results`, and forwards it as-is to the search step, which
truncates to exactly `min n upstream_available` — also for `n = 11`. -/
theorem c8_amended (q now key text : String) (n sl status : Nat)
    (numArg slArg : Option Nat) (so : SearchOutcome) (data : SerperData)
    (fo : String → FetchOutcome) (mo : String → ModelOutcome)
    (hq : q ≠ "") (hkey : key ≠ "") (hst : statusOk status = true) :
    mcpValidate none numArg slArg = none
    ∧ mcpValidate (some "") numArg slArg = none
    ∧ mcpValidate (some q) (some 0) slArg = none
    ∧ mcpValidate (some q) (some 11) slArg = none
    ∧ mcpValidate (some q) none none = some (q, 5, 150)
    ∧ apiHandler none (some n) slArg (some key) now so fo mo
        = .badRequest "Query parameter is required"
    ∧ apiHandler (some "") (some n) slArg (some key) now so fo mo
        = .badRequest "Query parameter is required"
    ∧ searchWeb (some key) q n now (.response status text (.ok data))
        = .ok (((upstreamUsed data).take n).map (normalizeResult now))
    ∧ (((upstreamUsed data).take n).map (normalizeResult now)).length
        = min n (upstreamUsed data).length := by
  have hlen := length_not_lt_one_of_ne hq
  refine ⟨rfl, rfl, ?_, ?_, ?_, rfl, rfl, ?_, ?_⟩
  · simp [mcpValidate, hlen]
  · simp [mcpValidate, hlen]
  · simp [mcpValidate, hlen]
  · simp [searchWeb, hkey, hst, buildResults_eq]
  · simp [List.length_take]

theorem c8_witness :
    mcpValidate (some "q") (some 11) none = none
    ∧ mcpValidate (some "q") (some 0) none = none
    ∧ (((upstreamUsed ⟨some (List.replicate 12 ⟨none, none, none, none⟩), none⟩).take 11).map
        (normalizeResult "T")).length = 11 := by
  have h := c8_amended "q" "T" "K" "" 11 150 200 (some 11) none
    (.transportError "x") ⟨some (List.replicate 12 ⟨none, none, none, none⟩), none⟩
    (fun _ => .transportError "e") (fun _ => .error "e")
    (by decide) (by decide) (by decide)
  refine ⟨h.2.2.2.1, ?_, ?_⟩
  · exact (c8_amended "q" "T" "K" "" 11 150 200 (some 11) none
      (.transportError "x") ⟨some (List.replicate 12 ⟨none, none, none, none⟩), none⟩
      (fun _ => .transportError "e") (fun _ => .error "e")
      (by decide) (by decide) (by decide)).2.2.1
  · rw [h.2.2.2.2.2.2.2.2]
    decide

/-- C9 (counterexample): the AI-model credential is never checked.
With the model backend failing exactly as it does when the credential
is absent, the request still succeeds: the Serper call went out first,
each result got the truncation-fallback summary, and no configuration
error is surfaced anywhere. -/
theorem c9_counterexample :
    apiHandler (some "q") (some 1) (some 50) (some "K") "T"
        (.response 200 "" (.ok ⟨some [⟨some "t", some "http://x", some "alpha beta",
          none⟩], none⟩))
        (fun _ => .transportError "net") (fun _ => .error "missing GEMINI_API_KEY")
      = .success "q"
          [{ title := "t", url := "http://x", published := "T", summary := "alpha beta"
           , contentSource := "snippet", contentLength := some 10, errorMsg := none }] := by
  decide

/-- C9 (amended): if the search-provider credential is absent (or
empty, which JavaScript also treats as falsy), `searchWeb` fails with
the configuration error before any network interaction — the result
does not depend on the network outcome at all; the AI-model credential
is never validated: its absence surfaces only as a model-invocation
failure, which `generateSummary` absorbs by truncating the content, so
the request is not failed. -/
theorem c9_amended (q now content msg : String) (k sl : Nat) (o o' : SearchOutcome)
    (hnb : isBlankContent content = false) :
    searchWeb none q k now o = .error "SERPER_API_KEY is required but not configured"
    ∧ searchWeb (some "") q k now o
        = .error "SERPER_API_KEY is required but not configured"
    ∧ searchWeb none q k now o = searchWeb none q k now o'
    ∧ generateSummary content sl (.error msg) = ⟨content.data.take (sl * 5)⟩ := by
  refine ⟨by simp [searchWeb], by simp [searchWeb], by simp [searchWeb], ?_⟩
  simp [generateSummary, hnb]

theorem c9_witness :
    searchWeb none "q" 3 "T" (.transportError "a")
      = .error "SERPER_API_KEY is required but not configured"
    ∧ generateSummary "hello" 50 (.error "no key") = "hello" := by
  have h := c9_amended "q" "T" "hello" "no key" 3 50 (.transportError "a")
    (.transportError "b") (by decide)
  refine ⟨h.1, ?_⟩
  rw [h.2.2.2]
  decide

/-- C10: in the REST per-result loop the try body is total —
`fetchPageContent` and `generateSummary` absorb their own failures —
so the step never throws, the `snippet_fallback` catch branch is
unreachable, and every emitted record has `contentSource` equal to
`"snippet"` or `"full_page"` (and no `error` field). -/
theorem c10_no_snippet_fallback (r : SearchResult) (sl : Nat)
    (fo : String → FetchOutcome) (mo : String → ModelOutcome)
    (results : List SearchResult) :
    ((apiProcessResult r sl fo mo).contentSource = "snippet"
      ∨ (apiProcessResult r sl fo mo).contentSource = "full_page")
    ∧ (apiProcessResult r sl fo mo).errorMsg = none
    ∧ (∀ s ∈ apiLoop (fun x => .ok (apiProcessResult x sl fo mo)) results,
        s.contentSource = "snippet" ∨ s.contentSource = "full_page") := by
  have hbase : ∀ x : SearchResult,
      (apiProcessResult x sl fo mo).contentSource = "snippet"
      ∨ (apiProcessResult x sl fo mo).contentSource = "full_page" := by
    intro x
    by_cases hsf : shouldFetch x.url
    · by_cases hc : (fetchPageContent (fo x.url) != ""
          && decide ((fetchPageContent (fo x.url)).length > 100)) = true
      · right
        simp [apiProcessResult, apiContentFor, hsf, hc]
      · left
        simp only [apiProcessResult, apiContentFor, if_pos hsf]
        rw [if_neg (by simpa using hc)]
    · left
      simp [apiProcessResult, apiContentFor, hsf]
  refine ⟨hbase r, rfl, ?_⟩
  intro s hs
  rw [apiLoop_ok] at hs
  obtain ⟨x, _, rfl⟩ := List.mem_map.mp hs
  exact hbase x

theorem c10_witness :
    (apiProcessResult ⟨"t", "u", "s", "P"⟩ 150 (fun _ => .transportError "e")
        (fun _ => .error "m")).contentSource = "snippet"
    ∨ (apiProcessResult ⟨"t", "u", "s", "P"⟩ 150 (fun _ => .transportError "e")
        (fun _ => .error "m")).contentSource = "full_page" := by
  have h := c10_no_snippet_fallback ⟨"t", "u", "s", "P"⟩ 150
    (fun _ => .transportError "e") (fun _ => .error "m") [⟨"t", "u", "s", "P"⟩]
  exact h.2.2 _ (by rw [apiLoop_ok]; exact List.mem_map_of_mem _ (by simp))
